import Mathlib

/-!
Verification of the trace-acquisition-and-geo-enrichment pipeline of
`backend/server.js` (network traceroute API server).

The JavaScript source is shallowly embedded: JS numbers appearing in the
pipeline (coordinates, round-trip times) are modelled as `Rat`; absent or
`null` fields as `Option`; the mutable in-memory `GeoCache` as an explicit
state value threaded through the functions that touch it; `Date.now()` as an
explicit `now : Nat` parameter; and each outbound `fetch` as an environment
value giving, per address, either a thrown error or the parsed response body.
JS truthiness (the empty string and the number `0` are falsy) is modelled
explicitly where the source relies on it.
-/

namespace Network

/-- JS truthiness of an optional string: `null`/absent and `""` are falsy. -/
def strTruthy : Option String → Bool
  | none => false
  | some s => s != ""

/-- The JS idiom `x || null` on an optional string: keep only truthy values. -/
def orNullStr (x : Option String) : Option String :=
  if strTruthy x then x else none

/-- A JS `a || b || ... || null` chain: first truthy value, else `null`. -/
def firstTruthy : List (Option String) → Option String
  | [] => none
  | x :: xs => if strTruthy x then x else firstTruthy xs

/-- JS truthiness of an optional number: absent and `0` are falsy. -/
def numTruthy : Option Rat → Bool
  | none => false
  | some x => x != 0

/-- A normalized geolocation record, as built by either provider closure in
`geolocate`: `lat`/`lon` are always numbers there, the four locality fields
are `data.xxx || null`. -/
structure Geo where
  lat : Rat
  lon : Rat
  city : Option String
  region : Option String
  country : Option String
  countryCode : Option String
deriving Repr, DecidableEq

/-- One entry of the `GeoCache` map: `{ value, timestamp }` as stored by
`set`. `value` is `null` for a negative (exhausted-failure) result. -/
structure CacheEntry where
  value : Option Geo
  timestamp : Nat
deriving Repr, DecidableEq

/-- The in-memory TTL cache (`class GeoCache`): the backing `Map` is modelled
as a function from keys to optional entries. -/
structure GeoCache where
  cache : String → Option CacheEntry
  ttl : Nat

/-- A fresh cache (`new GeoCache(ttl)`). -/
def GeoCache.empty (ttl : Nat) : GeoCache := ⟨fun _ => none, ttl⟩

/-- `GeoCache.get(key)`: a missing key returns `null`; a stale entry
(`Date.now() - entry.timestamp > this.ttl`) is deleted and `null` returned;
otherwise `entry.value` is returned. The updated cache is returned alongside
(the JS method mutates `this.cache` in the stale case). `Nat` subtraction is
truncated, matching the JS comparison for `now ≥ timestamp` and also when the
clock ran backwards (a negative difference is never `> ttl`). -/
def GeoCache.get (c : GeoCache) (key : String) (now : Nat) :
    Option Geo × GeoCache :=
  match c.cache key with
  | none => (none, c)
  | some e =>
    if now - e.timestamp > c.ttl then
      (none, { c with cache := fun k => if k = key then none else c.cache k })
    else
      (e.value, c)

/-- `GeoCache.set(key, value)`: unconditional overwrite with a fresh
timestamp. -/
def GeoCache.set (c : GeoCache) (key : String) (value : Option Geo)
    (now : Nat) : GeoCache :=
  { c with cache := fun k => if k = key then some ⟨value, now⟩ else c.cache k }

/-- Outcome of one provider's `fetch` + body decode: the call may throw
(network failure, malformed body) or produce a parsed response. -/
inductive FetchOutcome (α : Type) where
  | throws
  | response (r : α)
deriving Repr, DecidableEq

/-- The view of an ipwho.is response taken by the primary provider closure:
`ok` is `res.ok`; `successIsFalse` holds when `data.success === false`;
`latitude`/`longitude` are `some` exactly when the field is a JS number. -/
structure IpwhoData where
  ok : Bool
  successIsFalse : Bool
  latitude : Option Rat
  longitude : Option Rat
  city : Option String
  region : Option String
  country : Option String
  country_code : Option String
deriving Repr, DecidableEq

/-- The view of an ipapi.co response taken by the fallback provider closure:
`ok` is `res.ok`; `errorTruthy` holds when `data.error` is truthy. -/
structure IpapiData where
  ok : Bool
  errorTruthy : Bool
  latitude : Option Rat
  longitude : Option Rat
  city : Option String
  region : Option String
  country_name : Option String
  country : Option String
  country_code : Option String
deriving Repr, DecidableEq

/-- The primary (ipwho.is) provider closure in `geolocate`. Declines
(returns `null`) on a thrown fetch, a non-ok response, `success === false`,
or missing/non-numeric coordinates; otherwise returns the normalized record. -/
def primaryProvider : FetchOutcome IpwhoData → Option Geo
  | .throws => none
  | .response d =>
    if !d.ok then none
    else if d.successIsFalse then none
    else
      match d.latitude, d.longitude with
      | some la, some lo =>
        some ⟨la, lo, orNullStr d.city, orNullStr d.region,
              orNullStr d.country, orNullStr d.country_code⟩
      | _, _ => none

/-- The fallback (ipapi.co) provider closure in `geolocate`. Declines on a
thrown fetch, a non-ok response, a truthy `error` field, or missing
coordinates; `country` is `data.country_name || data.country || null`. -/
def fallbackProvider : FetchOutcome IpapiData → Option Geo
  | .throws => none
  | .response d =>
    if !d.ok then none
    else if d.errorTruthy then none
    else
      match d.latitude, d.longitude with
      | some la, some lo =>
        some ⟨la, lo, orNullStr d.city, orNullStr d.region,
              firstTruthy [d.country_name, d.country], orNullStr d.country_code⟩
      | _, _ => none

/-- Environment giving, per address, the outcome of each provider's fetch. -/
structure GeoEnv where
  primary : String → FetchOutcome IpwhoData
  fallback : String → FetchOutcome IpapiData

/-- `geolocate(ip)`, with the shared cache threaded explicitly and, as ghost
instrumentation, the number of outbound provider calls issued by this
invocation. Mirrors the source: `if (cached) return cached` short-circuits
only on a truthy cached value, so a fresh negative entry (`value: null`) flows
past the check and the provider loop runs again; a provider that throws is
caught and treated as a decline; the first accepted result is cached and
returned; if both providers decline, `null` is cached and returned. -/
def geolocate (env : GeoEnv) (ip : String) (now : Nat) (c : GeoCache) :
    Option Geo × GeoCache × Nat :=
  match GeoCache.get c ip now with
  | (some g, c1) => (some g, c1, 0)
  | (none, c1) =>
    match primaryProvider (env.primary ip) with
    | some geo => (some geo, c1.set ip (some geo) now, 1)
    | none =>
      match fallbackProvider (env.fallback ip) with
      | some geo => (some geo, c1.set ip (some geo) now, 2)
      | none => (none, c1.set ip none now, 2)

/-- Does the character list start with the given pattern list? -/
def listStartsWith : List Char → List Char → Bool
  | _, [] => true
  | [], _ :: _ => false
  | c :: cs, p :: ps => c == p && listStartsWith cs ps

/-- The `(1[6-9]|2[0-9]|3[0-1])\.` alternative of the `isPrivateIP` regex,
applied after the `172.` literal. -/
def private172 (cs : List Char) : Bool :=
  (["16.", "17.", "18.", "19.", "20.", "21.", "22.", "23.",
    "24.", "25.", "26.", "27.", "28.", "29.", "30.", "31."].map String.data).any
    (fun p => listStartsWith cs p)

/-- `isPrivateIP(ip)`: `if (!ip) return true` (absent or empty string), then
the anchored-at-start regex
`^(10\.|127\.|192\.168\.|172\.(1[6-9]|2[0-9]|3[0-1])\.|169\.254\.|::1|fe80:)`. -/
def isPrivateIP (ip : Option String) : Bool :=
  match ip with
  | none => true
  | some s =>
    if s = "" then true
    else
      let cs := s.data
      listStartsWith cs "10.".data || listStartsWith cs "127.".data ||
      listStartsWith cs "192.168.".data ||
      (listStartsWith cs "172.".data && private172 (cs.drop 4)) ||
      listStartsWith cs "169.254.".data ||
      listStartsWith cs "::1".data || listStartsWith cs "fe80:".data

/-- A parsed hop as produced by `parseMtrJson` / `parseMtrText`. -/
structure Hop where
  hop : Nat
  ip : Option String
  hostname : Option String
  rtt : Option Rat
deriving Repr, DecidableEq

/-- An enriched hop: the spread `{ ...hop, isPrivate, ...(geo || {}) }`.
All four hop fields are copied; `isPrivate` is always present; the six geo
fields are present exactly when a geo record was merged. -/
structure EnrichedHop where
  hop : Nat
  ip : Option String
  hostname : Option String
  rtt : Option Rat
  isPrivate : Bool
  lat : Option Rat
  lon : Option Rat
  city : Option String
  region : Option String
  country : Option String
  countryCode : Option String
deriving Repr, DecidableEq

/-- Build one enriched hop from a hop, its privacy flag, and an optional geo
record (`{ ...hop, isPrivate: priv, ...(geo || {}) }`). -/
def mergeHop (h : Hop) (priv : Bool) (geo : Option Geo) : EnrichedHop :=
  match geo with
  | none => ⟨h.hop, h.ip, h.hostname, h.rtt, priv,
             none, none, none, none, none, none⟩
  | some g => ⟨h.hop, h.ip, h.hostname, h.rtt, priv,
               some g.lat, some g.lon, g.city, g.region, g.country,
               g.countryCode⟩

/-- `enrichWithGeo(hops)`: for each hop in order, a hop with no IP or a
private IP (`!hop.ip || isPrivateIP(hop.ip)`, which coincides with
`isPrivateIP hop.ip` here since an absent or empty address is private) is
emitted with `isPrivate: true` and no geo fields; otherwise `geolocate` is
consulted (threading the shared cache) and its result merged with
`isPrivate: false`. Also returns, as ghost instrumentation, the list of
addresses passed to `geolocate`, in call order. -/
def enrichWithGeo (env : GeoEnv) (now : Nat) (c : GeoCache) :
    List Hop → List EnrichedHop × GeoCache × List String
  | [] => ([], c, [])
  | h :: hs =>
    if isPrivateIP h.ip then
      let r := enrichWithGeo env now c hs
      (mergeHop h true none :: r.1, r.2.1, r.2.2)
    else
      let ipStr := h.ip.getD ""
      let g := geolocate env ipStr now c
      let r := enrichWithGeo env now g.2.1 hs
      (mergeHop h false g.1 :: r.1, r.2.1, ipStr :: r.2.2)

/-- The aggregate stats assembled by the `/trace` route. -/
structure TraceStats where
  totalHops : Nat
  publicHops : Nat
  geolocatedHops : Nat
deriving Repr, DecidableEq

/-- Stats computation of `GET /trace`: `hops.length`,
`enriched.filter(h => h.ip && !isPrivateIP(h.ip)).length`, and
`enriched.filter(h => h.lat && h.lon).length` — the last two filters use JS
truthiness of the fields. -/
def traceStats (hops : List Hop) (enriched : List EnrichedHop) : TraceStats :=
  { totalHops := hops.length,
    publicHops :=
      (enriched.filter fun h => strTruthy h.ip && !isPrivateIP h.ip).length,
    geolocatedHops :=
      (enriched.filter fun h => numTruthy h.lat && numTruthy h.lon).length }

/-- Is the character a decimal digit (`\d`)? -/
def isDigitCh (c : Char) : Bool := '0' ≤ c && c ≤ '9'

/-- JS `\s` restricted to the whitespace characters that can occur inside one
line of process output (space, tab, carriage return, vertical tab, form
feed); `\n` never occurs inside a line after `split("\n")`. -/
def isJsSpace (c : Char) : Bool :=
  c == ' ' || c == '\t' || c == '\r' || c == '\x0b' || c == '\x0c'

/-- Decimal value of a digit string (`parseInt` on an all-digit capture). -/
def natOfDigits (ds : List Char) : Nat :=
  ds.foldl (fun a c => a * 10 + (c.toNat - '0'.toNat)) 0

/-- `parseFloat` of a `digits(.digits)?` capture: the digit string with the
decimal point removed, over the matching power of ten. -/
def ratOfCapture (cs : List Char) : Rat :=
  let intPart := cs.takeWhile isDigitCh
  let rest := cs.drop intPart.length
  match rest with
  | '.' :: frac => mkRat (natOfDigits (intPart ++ frac)) (10 ^ frac.length)
  | _ => (natOfDigits intPart : Rat)

/-- `getFirstValidNumber(...values)`: fields are modelled after `parseFloat`,
so an argument is `some r` exactly when `parseFloat` yielded a finite number;
the function returns the first such value, else `null`. -/
def getFirstValidNumber : List (Option Rat) → Option Rat
  | [] => none
  | some x :: _ => some x
  | none :: rest => getFirstValidNumber rest

/-- Match `\d{1,3}` as one dotted-quad component at the head of `cs`,
returning the digits and the remainder. A maximal digit run longer than 3
fails: backtracking to a shorter run cannot help, since the character after
the shorter run would be a digit where the pattern next requires `.` (or the
end anchor). -/
def ipComp (cs : List Char) : Option (List Char × List Char) :=
  let r := cs.takeWhile isDigitCh
  if 1 ≤ r.length && r.length ≤ 3 then some (r, cs.drop r.length) else none

/-- Match the final unanchored `\d{1,3}`: greedily take up to 3 digits of a
nonempty run (nothing follows, so a longer run just leaves digits behind). -/
def ipCompFinal (cs : List Char) : Option (List Char) :=
  let r := cs.takeWhile isDigitCh
  if r.isEmpty then none else some (r.take 3)

/-- Anchored test of `^\d{1,3}\.\d{1,3}\.\d{1,3}\.\d{1,3}$` (the `isIP` check
of `parseMtrJson`): exactly four 1–3 digit components joined by dots. -/
def isDottedQuad (cs : List Char) : Bool :=
  match ipComp cs with
  | some (_, '.' :: r1) =>
    match ipComp r1 with
    | some (_, '.' :: r2) =>
      match ipComp r2 with
      | some (_, '.' :: r3) =>
        match ipComp r3 with
        | some (_, r4) => r4.isEmpty
        | none => false
      | _ => false
    | _ => false
  | _ => false

/-- One hop entry (`hub`) of the structured MTR report, with the latency
fields modelled after `parseFloat` as in `getFirstValidNumber`. -/
structure Hub where
  host : Option String
  hostname : Option String
  ip : Option String
  avg : Option Rat
  last : Option Rat
  best : Option Rat
  wst : Option Rat
deriving Repr, DecidableEq

/-- The `report` object of the structured MTR output; `hubs` is `none` when
the field is absent or not an array. -/
structure MtrReport where
  hubs : Option (List Hub)
deriving Repr, DecidableEq

/-- A decoded MTR JSON document (`json?.report?.hubs` navigation). -/
structure MtrJson where
  report : Option MtrReport
deriving Repr, DecidableEq

/-- The per-hub mapping of `parseMtrJson`: `hostString` is
`hub.host || hub.hostname || hub.ip || null`; `isIP` tests `hostString`
against the anchored dotted-quad regex; `ip` is `isIP ? hostString :
(hub.ip || null)`; `rtt` is `getFirstValidNumber(avg, last, best, wst)`. -/
def hubToHop (idx : Nat) (hub : Hub) : Hop :=
  let hostString := firstTruthy [hub.host, hub.hostname, hub.ip]
  let isIP := match hostString with
    | some s => isDottedQuad s.data
    | none => false
  { hop := idx + 1,
    ip := if isIP then hostString else orNullStr hub.ip,
    hostname := hostString,
    rtt := getFirstValidNumber [hub.avg, hub.last, hub.best, hub.wst] }

/-- `hubs.map((hub, idx) => ...)` with the explicit running index. -/
def mapHubs (f : Nat → Hub → Hop) : Nat → List Hub → List Hop
  | _, [] => []
  | i, h :: t => f i h :: mapHubs f (i + 1) t

/-- `parseMtrJson(json)`: `[]` unless `json?.report?.hubs` is an array, else
the indexed map over the hubs. -/
def parseMtrJson (json : Option MtrJson) : List Hop :=
  match json with
  | some j =>
    match j.report with
    | some rep =>
      match rep.hubs with
      | some hubs => mapHubs hubToHop 0 hubs
      | none => []
    | none => []
  | none => []

/-- `text.split("\n")` on character lists. -/
def splitLines : List Char → List (List Char)
  | [] => [[]]
  | c :: cs =>
    let rest := splitLines cs
    if c == '\n' then [] :: rest
    else
      match rest with
      | r :: rs => (c :: r) :: rs
      | [] => [[c]]

/-- The `^\s*(\d+)` capture of a line (`hopMatch[1]`). -/
def leadingDigits (cs : List Char) : List Char :=
  (cs.dropWhile isJsSpace).takeWhile isDigitCh

/-- Does a line qualify as a hop line, i.e. match `^\s*\d+\.\|--`? -/
def isHopLine (cs : List Char) : Bool :=
  !(leadingDigits cs).isEmpty &&
    listStartsWith ((cs.dropWhile isJsSpace).drop (leadingDigits cs).length)
      ".|--".data

/-- Try `\d{1,3}(?:\.\d{1,3}){3}` (the `ipMatch` capture) at the head of
`cs`. -/
def ipAt (cs : List Char) : Option (List Char) :=
  match ipComp cs with
  | some (r1, '.' :: rest1) =>
    match ipComp rest1 with
    | some (r2, '.' :: rest2) =>
      match ipComp rest2 with
      | some (r3, '.' :: rest3) =>
        match ipCompFinal rest3 with
        | some r4 => some (r1 ++ '.' :: r2 ++ '.' :: r3 ++ '.' :: r4)
        | none => none
      | _ => none
    | _ => none
  | _ => none

/-- Leftmost match of the `ipMatch` regex: try each start position in turn. -/
def findIp : List Char → Option (List Char)
  | [] => none
  | c :: rest =>
    match ipAt (c :: rest) with
    | some cap => some cap
    | none => findIp rest

/-- Try `\d+\.\|--\s*([^\s(]+)` (the `hostMatch` capture) at the head of
`cs`. The `\s*` is greedy and cannot give characters back (the token class
excludes whitespace), and a shorter `\d+` run cannot help (the next required
character would still be a digit), so the match is deterministic. -/
def hostAt (cs : List Char) : Option (List Char) :=
  let r := cs.takeWhile isDigitCh
  if r.isEmpty then none
  else
    let rest := cs.drop r.length
    if listStartsWith rest ".|--".data then
      let afterWs := (rest.drop 4).dropWhile isJsSpace
      let tok := afterWs.takeWhile (fun c => !isJsSpace c && c != '(')
      if tok.isEmpty then none else some tok
    else none

/-- Leftmost match of the `hostMatch` regex. -/
def findHost : List Char → Option (List Char)
  | [] => none
  | c :: rest =>
    match hostAt (c :: rest) with
    | some t => some t
    | none => findHost rest

/-- Try `(\d+(?:\.\d+)?)\s*ms` (the `rttMatch` capture) at the head of `cs`.
The optional fraction is taken exactly when a dot followed by a digit follows
the integer part; no backtracking alternative can succeed otherwise, since a
digit can satisfy neither `\s*` progress nor the literal `m`. -/
def rttAt (cs : List Char) : Option (List Char) :=
  let d1 := cs.takeWhile isDigitCh
  if d1.isEmpty then none
  else
    let rest1 := cs.drop d1.length
    let capRest :=
      match rest1 with
      | '.' :: r =>
        let d2 := r.takeWhile isDigitCh
        if d2.isEmpty then (d1, rest1)
        else (d1 ++ '.' :: d2, r.drop d2.length)
      | _ => (d1, rest1)
    let afterWs := capRest.2.dropWhile isJsSpace
    if listStartsWith afterWs "ms".data then some capRest.1 else none

/-- Leftmost match of the `rttMatch` regex. -/
def findRtt : List Char → Option (List Char)
  | [] => none
  | c :: rest =>
    match rttAt (c :: rest) with
    | some t => some t
    | none => findRtt rest

/-- Build the hop pushed by `parseMtrText` for one qualifying line. `count`
is `hops.length` at that point; the `hops.length + 1` fallback is dead code
on qualifying lines (their leading-integer match always succeeds) but is kept
for fidelity. -/
def lineToHop (count : Nat) (cs : List Char) : Hop :=
  let ds := leadingDigits cs
  let ipStr := (findIp cs).map (fun l => String.mk l)
  { hop := if ds.isEmpty then count + 1 else natOfDigits ds,
    ip := ipStr,
    hostname :=
      match findHost cs with
      | some t => some (String.mk t)
      | none => ipStr,
    rtt := (findRtt cs).map ratOfCapture }

/-- The line loop of `parseMtrText`, with `count` the number of hops pushed
so far. -/
def parseMtrTextLines (count : Nat) : List (List Char) → List Hop
  | [] => []
  | l :: ls =>
    if isHopLine l then
      lineToHop count l :: parseMtrTextLines (count + 1) ls
    else
      parseMtrTextLines count ls

/-- `parseMtrText(text)`: scan the lines of the raw output, keeping only
lines matching `^\s*\d+\.\|--`. -/
def parseMtrText (text : String) : List Hop :=
  parseMtrTextLines 0 (splitLines text.data)

/-- The decode half of `runTraceroute`, after the external process produced
`stdout`. `JSON.parse` is abstracted as an oracle argument: `parsed = some j`
when `stdout` is well-formed JSON decoding to `j`, `none` when `JSON.parse`
throws; in the latter case the free-text decoder runs on the raw `stdout`.
Decoding is total — no parse failure propagates an error. -/
def runTracerouteDecode (parsed : Option (Option MtrJson)) (stdout : String) :
    List Hop :=
  match parsed with
  | some j => parseMtrJson j
  | none => parseMtrText stdout

/-- One numeric dotted-quad octet (1–3 digits, value at most 255). Used only
by the spec-side range predicate below. -/
def quadComp (cs : List Char) : Option (Nat × List Char) :=
  let r := cs.takeWhile isDigitCh
  if r.isEmpty || decide (r.length > 3) then none
  else
    let n := natOfDigits r
    if n ≤ 255 then some (n, cs.drop r.length) else none

/-- Parse a whole string as a numeric dotted-quad IPv4 address. Used only by
the spec-side range predicate below. -/
def parseQuad (cs : List Char) : Option (Nat × Nat × Nat × Nat) :=
  match quadComp cs with
  | some (a, '.' :: r1) =>
    match quadComp r1 with
    | some (b, '.' :: r2) =>
      match quadComp r2 with
      | some (c, '.' :: r3) =>
        match quadComp r3 with
        | some (d, []) => some (a, b, c, d)
        | _ => none
      | _ => none
    | _ => none
  | _ => none

/-- Does the text begin with an fe80::/10 first hextet (`fe80`–`febf` in
lowercase hex) followed by a colon? Used only by the spec-side range
predicate below. -/
def isFe80Head : List Char → Bool
  | 'f' :: 'e' :: c :: d :: ':' :: _ =>
    (c == '8' || c == '9' || c == 'a' || c == 'b') &&
      (isDigitCh d || ('a' ≤ d && d ≤ 'f'))
  | _ => false

/-- Modelled from the spec: membership of a textual address in the reserved
ranges named in §4.1 — loopback (127.0.0.0/8, ::1), link-local
(169.254.0.0/16, fe80::/10), and the RFC1918 blocks (10/8, 172.16/12,
192.168/16). A dotted-quad address is parsed numerically; the IPv6 loopback
is the single address `::1`; an fe80::/10 address starts with a first hextet
`fe80`–`febf`. A string that is not an address in any of these ranges is
outside them ("unmatched input simply classifies as public"). This definition
follows the spec's words, for comparison with the source's `isPrivateIP`. -/
def specReservedRange (s : String) : Bool :=
  match parseQuad s.data with
  | some (a, b, _, _) =>
    a == 127 || a == 10 || (a == 172 && 16 ≤ b && b ≤ 31) ||
    (a == 192 && b == 168) || (a == 169 && b == 254)
  | none => s == "::1" || isFe80Head s.data

/-- The normalized record the fallback provider builds from an accepted
ipapi.co response with numeric coordinates `la`/`lo`. -/
def ipapiGeo (d : IpapiData) (la lo : Rat) : Geo :=
  ⟨la, lo, orNullStr d.city, orNullStr d.region,
   firstTruthy [d.country_name, d.country], orNullStr d.country_code⟩

/-- C7: `GeoCache.get` immediately (or any time within the time-to-live)
after `GeoCache.set` for that key returns the stored value; `get` after the
time-to-live has elapsed returns nothing and drops the entry even though
`set` was never called again; and `set` unconditionally overwrites any
existing entry for the key. -/
theorem geoCache_get_set_spec (c : GeoCache) (k : String) (v : Option Geo)
    (t now : Nat) :
    (now - t ≤ c.ttl → (GeoCache.get (GeoCache.set c k v t) k now).1 = v) ∧
    (now - t > c.ttl →
      (GeoCache.get (GeoCache.set c k v t) k now).1 = none ∧
      (GeoCache.get (GeoCache.set c k v t) k now).2.cache k = none) ∧
    (GeoCache.set c k v t).cache k = some ⟨v, t⟩ := by
  refine ⟨?_, ?_, ?_⟩
  · intro h
    simp [GeoCache.get, GeoCache.set, Nat.not_lt.mpr h]
  · intro h
    simp [GeoCache.get, GeoCache.set, h]
  · simp [GeoCache.set]

/-- Witness for `geoCache_get_set_spec`: a fresh read at age 5 of a
ttl-10 cache returns the stored record, and a read at age 20 returns nothing
and drops the entry. -/
theorem geoCache_get_set_spec_witness :
    (GeoCache.get
      (GeoCache.set (GeoCache.empty 10) "a"
        (some ⟨1, 2, none, none, none, none⟩) 0) "a" 5).1 =
      some ⟨1, 2, none, none, none, none⟩ ∧
    (GeoCache.get
      (GeoCache.set (GeoCache.empty 10) "a"
        (some ⟨1, 2, none, none, none, none⟩) 0) "a" 20).1 = none :=
  ⟨(geoCache_get_set_spec (GeoCache.empty 10) "a"
      (some ⟨1, 2, none, none, none, none⟩) 0 5).1 (by decide),
   ((geoCache_get_set_spec (GeoCache.empty 10) "a"
      (some ⟨1, 2, none, none, none, none⟩) 0 20).2.1 (by decide)).1⟩

/-- C6: on a cache miss, when the primary provider fails or returns an
unusable shape and the fallback returns an ok response with numeric latitude
and longitude, `geolocate` returns the fallback's normalized record, stores
it in the cache, and a subsequent call for the same address within the
time-to-live returns that record with zero outbound provider calls. -/
theorem geolocate_fallback_success (env : GeoEnv) (ip : String) (c : GeoCache)
    (now now2 : Nat) (d : IpapiData) (la lo : Rat)
    (hmiss : c.cache ip = none)
    (hprim : primaryProvider (env.primary ip) = none)
    (hfb : env.fallback ip = .response d)
    (hok : d.ok = true) (herr : d.errorTruthy = false)
    (hla : d.latitude = some la) (hlo : d.longitude = some lo) :
    fallbackProvider (env.fallback ip) = some (ipapiGeo d la lo) ∧
    geolocate env ip now c =
      (some (ipapiGeo d la lo),
       GeoCache.set c ip (some (ipapiGeo d la lo)) now, 2) ∧
    (GeoCache.set c ip (some (ipapiGeo d la lo)) now).cache ip =
      some ⟨some (ipapiGeo d la lo), now⟩ ∧
    (now2 - now ≤ c.ttl →
      geolocate env ip now2 (GeoCache.set c ip (some (ipapiGeo d la lo)) now) =
        (some (ipapiGeo d la lo),
         GeoCache.set c ip (some (ipapiGeo d la lo)) now, 0)) := by
  have hfbp : fallbackProvider (env.fallback ip) = some (ipapiGeo d la lo) := by
    rw [hfb]
    simp [fallbackProvider, hok, herr, hla, hlo, ipapiGeo]
  refine ⟨hfbp, ?_, ?_, ?_⟩
  · simp [geolocate, GeoCache.get, hmiss, hprim, hfbp]
  · simp [GeoCache.set]
  · intro hfresh
    simp [geolocate, GeoCache.get, GeoCache.set, Nat.not_lt.mpr hfresh]

/-- Witness for `geolocate_fallback_success`: a throwing primary and a
successful fallback at a concrete address against an empty cache. -/
theorem geolocate_fallback_success_witness :
    geolocate
        ⟨fun _ => .throws,
         fun _ => .response ⟨true, false, some 1, some 2, some "X", none,
                              some "Y", none, some "ZZ"⟩⟩
        "9.9.9.9" 0 (GeoCache.empty 100) =
      (some ⟨1, 2, some "X", none, some "Y", some "ZZ"⟩,
       GeoCache.set (GeoCache.empty 100) "9.9.9.9"
         (some ⟨1, 2, some "X", none, some "Y", some "ZZ"⟩) 0, 2) :=
  ((geolocate_fallback_success
      ⟨fun _ => .throws,
       fun _ => .response ⟨true, false, some 1, some 2, some "X", none,
                            some "Y", none, some "ZZ"⟩⟩
      "9.9.9.9" (GeoCache.empty 100) 0 50
      ⟨true, false, some 1, some 2, some "X", none, some "Y", none, some "ZZ"⟩
      1 2 rfl rfl rfl rfl rfl rfl rfl).2).1

/-- Environment in which both providers answer but decline (non-ok
responses), for the negative-cache scenario. -/
def c1env : GeoEnv :=
  ⟨fun _ => .response ⟨false, false, none, none, none, none, none, none⟩,
   fun _ => .response ⟨false, false, none, none, none, none, none, none, none⟩⟩

/-- C1 (failing-input evaluation): with both providers declining, `geolocate`
returns nothing and caches a negative entry, but a second call for the same
address well within the time-to-live issues both outbound provider calls
again — the cached `null` is falsy, so `if (cached) return cached` treats the
fresh negative entry as a miss, defeating the "avoid repeated lookups"
purpose the source comments state. -/
theorem geolocate_negative_cache_requery :
    (geolocate c1env "1.2.3.4" 0 (GeoCache.empty 3600000)).1 = none ∧
    (geolocate c1env "1.2.3.4" 0 (GeoCache.empty 3600000)).2.1.cache "1.2.3.4" =
      some ⟨none, 0⟩ ∧
    (geolocate c1env "1.2.3.4" 1000
      (geolocate c1env "1.2.3.4" 0 (GeoCache.empty 3600000)).2.1).1 = none ∧
    (geolocate c1env "1.2.3.4" 1000
      (geolocate c1env "1.2.3.4" 0 (GeoCache.empty 3600000)).2.1).2.2 = 2 := by
  decide

/-- Environment for the three-hop enrichment scenario: the primary provider
resolves every queried address to Mountain View (lat 37.4 = 187/5,
lon -122.1 = -1221/10). -/
def c3env : GeoEnv :=
  ⟨fun _ => .response ⟨true, false, some (mkRat 187 5), some (mkRat (-1221) 10),
     some "Mountain View", some "California", some "United States", some "US"⟩,
   fun _ => .throws⟩

/-- The three-hop trace: private gateway, timed-out hop, public 8.8.8.8. -/
def c3hops : List Hop :=
  [⟨1, some "192.168.1.1", some "gateway", some 1⟩,
   ⟨2, none, none, none⟩,
   ⟨3, some "8.8.8.8", some "dns.google", some (mkRat 47 5)⟩]

/-- C3: enriching the three-hop trace yields `isPrivate = [true, true,
false]`, coordinates (and city) only on hop 3, and stats `totalHops = 3`,
`publicHops = 1`, `geolocatedHops = 1`. -/
theorem enrich_three_hop_scenario :
    ((enrichWithGeo c3env 0 (GeoCache.empty 3600000) c3hops).1.map
        EnrichedHop.isPrivate = [true, true, false]) ∧
    ((enrichWithGeo c3env 0 (GeoCache.empty 3600000) c3hops).1.map
        EnrichedHop.lat = [none, none, some (mkRat 187 5)]) ∧
    ((enrichWithGeo c3env 0 (GeoCache.empty 3600000) c3hops).1.map
        EnrichedHop.lon = [none, none, some (mkRat (-1221) 10)]) ∧
    ((enrichWithGeo c3env 0 (GeoCache.empty 3600000) c3hops).1.map
        EnrichedHop.city = [none, none, some "Mountain View"]) ∧
    traceStats c3hops (enrichWithGeo c3env 0 (GeoCache.empty 3600000) c3hops).1 =
      ⟨3, 1, 1⟩ := by
  decide

/-- Environment whose primary provider returns an accepted record with
latitude 0 (a point on the equator) and longitude 10. -/
def c9env : GeoEnv :=
  ⟨fun _ => .response ⟨true, false, some 0, some 10, none, none, none, none⟩,
   fun _ => .throws⟩

/-- The single public hop queried in the zero-latitude scenario. -/
def c9hops : List Hop := [⟨1, some "8.8.8.8", some "dns", some 10⟩]

/-- C9 (failing-input evaluation): a hop whose accepted provider record has
latitude 0 gets `lat`/`lon` fields merged into its enriched record (presence
is representable and distinct from absence), yet `stats.geolocatedHops`
counts it as not geolocated: the `/trace` filter `h.lat && h.lon` uses JS
truthiness, under which the coordinate 0 is indistinguishable from an absent
field. -/
theorem geolocatedHops_zero_not_counted :
    ((enrichWithGeo c9env 0 (GeoCache.empty 3600000) c9hops).1.map
        EnrichedHop.lat = [some 0]) ∧
    ((enrichWithGeo c9env 0 (GeoCache.empty 3600000) c9hops).1.map
        EnrichedHop.lon = [some 10]) ∧
    ((enrichWithGeo c9env 0 (GeoCache.empty 3600000) c9hops).1.map
        EnrichedHop.isPrivate = [false]) ∧
    (traceStats c9hops
        (enrichWithGeo c9env 0 (GeoCache.empty 3600000) c9hops).1).geolocatedHops
      = 0 := by
  decide

/-- C8: the trace runner's decode step attempts the structured decoder first
(a successful `JSON.parse` is always handed to `parseMtrJson`), falls back to
the free-text decoder exactly when `JSON.parse` throws on malformed input,
and when both decodes yield nothing the result is the empty hop list — the
decode step is a total function, so no parse failure propagates an error. A
concrete both-fail output (an MTR resolution-failure message) decodes to
`[]`. -/
theorem runTracerouteDecode_spec (stdout : String) (j : Option MtrJson) :
    runTracerouteDecode (some j) stdout = parseMtrJson j ∧
    runTracerouteDecode none stdout = parseMtrText stdout ∧
    (parseMtrText stdout = [] → runTracerouteDecode none stdout = []) ∧
    runTracerouteDecode none "mtr: Failed to resolve host: example.invalid" =
      [] := by
  exact ⟨rfl, rfl, fun h => h, by decide⟩

/-- Witness for `runTracerouteDecode_spec`: on a stderr-style one-line
output, the text decoder yields nothing and the decode step returns `[]`. -/
theorem runTracerouteDecode_spec_witness :
    runTracerouteDecode none "start: 2024-01-01" = [] :=
  ((runTracerouteDecode_spec "start: 2024-01-01" none).2.2).1 (by decide)

theorem mergeHop_fields (h : Hop) (b : Bool) (g : Option Geo) :
    (mergeHop h b g).hop = h.hop ∧ (mergeHop h b g).ip = h.ip ∧
    (mergeHop h b g).hostname = h.hostname ∧ (mergeHop h b g).rtt = h.rtt := by
  cases g <;> simp [mergeHop]

theorem mergeHop_isPrivate (h : Hop) (b : Bool) (g : Option Geo) :
    (mergeHop h b g).isPrivate = b := by
  cases g <;> simp [mergeHop]

/-- C4: in every enrichment run, an enriched hop marked private carries no
latitude and no longitude, and every address passed to `geolocate` is
classified non-private by `isPrivateIP` (in particular it is present and
nonempty, since an absent or empty address classifies as private). -/
theorem enrichWithGeo_private_no_geo (env : GeoEnv) (now : Nat) (c : GeoCache)
    (hops : List Hop) :
    (∀ e ∈ (enrichWithGeo env now c hops).1,
        e.isPrivate = true → e.lat = none ∧ e.lon = none) ∧
    (∀ ip ∈ (enrichWithGeo env now c hops).2.2,
        isPrivateIP (some ip) = false) := by
  induction hops generalizing c with
  | nil => simp [enrichWithGeo]
  | cons h hs ih =>
    by_cases hp : isPrivateIP h.ip
    · simp only [enrichWithGeo, if_pos hp]
      refine ⟨?_, ?_⟩
      · intro e he hpriv
        rcases List.mem_cons.mp he with he | he
        · subst he; exact ⟨rfl, rfl⟩
        · exact (ih c).1 e he hpriv
      · intro ip hip
        exact (ih c).2 ip hip
    · simp only [enrichWithGeo, if_neg hp]
      refine ⟨?_, ?_⟩
      · intro e he hpriv
        rcases List.mem_cons.mp he with he | he
        · exfalso
          subst he
          rw [mergeHop_isPrivate] at hpriv
          exact Bool.false_ne_true hpriv
        · exact (ih _).1 e he hpriv
      · intro ip hip
        rcases List.mem_cons.mp hip with he | he
        · subst he
          rcases hip2 : h.ip with _ | s
          · rw [hip2] at hp
            simp [isPrivateIP] at hp
          · rw [hip2] at hp
            simp only [Option.getD_some]
            simp at hp
            exact hp
        · exact (ih _).2 ip he

/-- Environment and trace used by the witness of
`enrichWithGeo_private_no_geo`: both provider fetches throw. -/
def c4env : GeoEnv := ⟨fun _ => .throws, fun _ => .throws⟩

/-- A private hop followed by a public hop. -/
def c4hops : List Hop :=
  [⟨1, some "10.0.0.1", none, none⟩, ⟨2, some "8.8.8.8", none, none⟩]

/-- Witness for `enrichWithGeo_private_no_geo`: in the concrete two-hop run,
the private first hop carries no coordinates and the one queried address,
8.8.8.8, is non-private. -/
theorem enrichWithGeo_private_no_geo_witness :
    (mergeHop ⟨1, some "10.0.0.1", none, none⟩ true none).lat = none ∧
    (mergeHop ⟨1, some "10.0.0.1", none, none⟩ true none).lon = none ∧
    isPrivateIP (some "8.8.8.8") = false :=
  ⟨((enrichWithGeo_private_no_geo c4env 0 (GeoCache.empty 5) c4hops).1
      (mergeHop ⟨1, some "10.0.0.1", none, none⟩ true none)
      (by decide) (by decide)).1,
   ((enrichWithGeo_private_no_geo c4env 0 (GeoCache.empty 5) c4hops).1
      (mergeHop ⟨1, some "10.0.0.1", none, none⟩ true none)
      (by decide) (by decide)).2,
   (enrichWithGeo_private_no_geo c4env 0 (GeoCache.empty 5) c4hops).2
      "8.8.8.8" (by decide)⟩

/-- C10: `enrichWithGeo` is a frame-preserving enrichment — the output list
has the same length as the input, and at every position the enriched record
preserves the input hop's `hop`, `ip`, `hostname` and `rtt` fields unchanged
(the record type adds only `isPrivate` and the six geo fields). -/
theorem enrichWithGeo_frame (env : GeoEnv) (now : Nat) (c : GeoCache)
    (hops : List Hop) :
    (enrichWithGeo env now c hops).1.length = hops.length ∧
    ∀ i : Nat,
      (enrichWithGeo env now c hops).1[i]?.map EnrichedHop.hop =
        hops[i]?.map Hop.hop ∧
      (enrichWithGeo env now c hops).1[i]?.map EnrichedHop.ip =
        hops[i]?.map Hop.ip ∧
      (enrichWithGeo env now c hops).1[i]?.map EnrichedHop.hostname =
        hops[i]?.map Hop.hostname ∧
      (enrichWithGeo env now c hops).1[i]?.map EnrichedHop.rtt =
        hops[i]?.map Hop.rtt := by
  induction hops generalizing c with
  | nil => simp [enrichWithGeo]
  | cons h hs ih =>
    by_cases hp : isPrivateIP h.ip
    · simp only [enrichWithGeo, if_pos hp]
      refine ⟨by simp [(ih c).1], ?_⟩
      intro i
      cases i with
      | zero => simp [mergeHop_fields]
      | succ n =>
        simpa only [List.getElem?_cons_succ] using (ih c).2 n
    · simp only [enrichWithGeo, if_neg hp]
      refine ⟨by simp [(ih _).1], ?_⟩
      intro i
      cases i with
      | zero => simp [mergeHop_fields]
      | succ n =>
        simpa only [List.getElem?_cons_succ] using (ih _).2 n

theorem mapHubs_hop_map : ∀ (hubs : List Hub) (i : Nat),
    (mapHubs hubToHop i hubs).map Hop.hop = List.range' (i + 1) hubs.length
  | [], _ => by simp [mapHubs, List.range']
  | h :: t, i => by
    simp [mapHubs, hubToHop, List.range', mapHubs_hop_map t (i + 1)]

theorem mapHubs_length : ∀ (hubs : List Hub) (i : Nat),
    (mapHubs hubToHop i hubs).length = hubs.length
  | [], _ => rfl
  | h :: t, i => by simp [mapHubs, mapHubs_length t (i + 1)]

theorem parseMtrTextLines_hop_map : ∀ (ls : List (List Char)) (count : Nat),
    (parseMtrTextLines count ls).map Hop.hop =
      (ls.filter isHopLine).map fun cs => natOfDigits (leadingDigits cs)
  | [], _ => rfl
  | l :: ls, count => by
    by_cases hl : isHopLine l
    · have hds : (leadingDigits l).isEmpty = false := by
        cases hE : (leadingDigits l).isEmpty
        · rfl
        · exfalso
          unfold isHopLine at hl
          rw [hE] at hl
          simp at hl
      simp [parseMtrTextLines, hl, List.filter_cons, lineToHop, hds,
        parseMtrTextLines_hop_map ls (count + 1)]
    · simp [parseMtrTextLines, hl, List.filter_cons,
        parseMtrTextLines_hop_map ls count]

/-- C2 counterexample: the free-text decoder accepts an output whose hop
lines carry the leading integers 2 then 1, and returns hop indices `[2, 1]` —
neither strictly increasing nor starting at 1. -/
theorem parseMtrText_index_counterexample :
    (parseMtrText "2.|-- b 2 ms\n1.|-- a 1 ms").map Hop.hop = [2, 1] ∧
    (parseMtrText "2.|-- b 2 ms\n1.|-- a 1 ms").map Hop.hop ≠
      List.range' 1 (parseMtrText "2.|-- b 2 ms\n1.|-- a 1 ms").length := by
  decide

/-- C2 (amended): the structured decoder always yields hop indices
1, 2, …, n (strictly increasing, contiguous from 1); the free-text decoder
copies each qualifying line's leading integer as the hop index, so its output
satisfies the invariant exactly when those leading integers do (as they do in
real MTR report output). -/
theorem parse_hop_indices (json : Option MtrJson) (text : String) :
    (parseMtrJson json).map Hop.hop =
      List.range' 1 (parseMtrJson json).length ∧
    (parseMtrText text).map Hop.hop =
      ((splitLines text.data).filter isHopLine).map
        (fun cs => natOfDigits (leadingDigits cs)) := by
  constructor
  · rcases json with _ | ⟨_ | ⟨_ | hubs⟩⟩ <;>
      simp [parseMtrJson, mapHubs_hop_map, mapHubs_length]
  · exact parseMtrTextLines_hop_map _ 0

theorem listStartsWith_append (cs p q : List Char) :
    listStartsWith cs (p ++ q) =
      (listStartsWith cs p && listStartsWith (cs.drop p.length) q) := by
  induction p generalizing cs with
  | nil => simp [listStartsWith]
  | cons a p ih =>
    cases cs with
    | nil => simp [listStartsWith]
    | cons c cs => simp [listStartsWith, ih, Bool.and_assoc]

/-- The flat list of literal prefixes that `isPrivateIP` tests, with the
`172.(1[6-9]|2[0-9]|3[0-1])\.` alternative expanded. -/
def privatePrefixList : List String :=
  ["10.", "127.", "192.168.",
   "172.16.", "172.17.", "172.18.", "172.19.", "172.20.", "172.21.",
   "172.22.", "172.23.", "172.24.", "172.25.", "172.26.", "172.27.",
   "172.28.", "172.29.", "172.30.", "172.31.",
   "169.254.", "::1", "fe80:"]

theorem startsWith_172_block (cs : List Char) :
    (listStartsWith cs ['1', '7', '2', '.'] && private172 (cs.drop 4)) =
      (listStartsWith cs ['1', '7', '2', '.', '1', '6', '.'] ||
       listStartsWith cs ['1', '7', '2', '.', '1', '7', '.'] ||
       listStartsWith cs ['1', '7', '2', '.', '1', '8', '.'] ||
       listStartsWith cs ['1', '7', '2', '.', '1', '9', '.'] ||
       listStartsWith cs ['1', '7', '2', '.', '2', '0', '.'] ||
       listStartsWith cs ['1', '7', '2', '.', '2', '1', '.'] ||
       listStartsWith cs ['1', '7', '2', '.', '2', '2', '.'] ||
       listStartsWith cs ['1', '7', '2', '.', '2', '3', '.'] ||
       listStartsWith cs ['1', '7', '2', '.', '2', '4', '.'] ||
       listStartsWith cs ['1', '7', '2', '.', '2', '5', '.'] ||
       listStartsWith cs ['1', '7', '2', '.', '2', '6', '.'] ||
       listStartsWith cs ['1', '7', '2', '.', '2', '7', '.'] ||
       listStartsWith cs ['1', '7', '2', '.', '2', '8', '.'] ||
       listStartsWith cs ['1', '7', '2', '.', '2', '9', '.'] ||
       listStartsWith cs ['1', '7', '2', '.', '3', '0', '.'] ||
       listStartsWith cs ['1', '7', '2', '.', '3', '1', '.']) := by
  have h : ∀ suf : List Char, listStartsWith cs (['1', '7', '2', '.'] ++ suf) =
      (listStartsWith cs ['1', '7', '2', '.'] && listStartsWith (cs.drop 4) suf) := by
    intro suf
    have := listStartsWith_append cs ['1', '7', '2', '.'] suf
    simpa using this
  have e16 : ∀ a b : Char, (['1', '7', '2', '.', a, b, '.'] : List Char) =
      ['1', '7', '2', '.'] ++ [a, b, '.'] := fun a b => rfl
  rw [e16 '1' '6', e16 '1' '7', e16 '1' '8', e16 '1' '9',
      e16 '2' '0', e16 '2' '1', e16 '2' '2', e16 '2' '3',
      e16 '2' '4', e16 '2' '5', e16 '2' '6', e16 '2' '7',
      e16 '2' '8', e16 '2' '9', e16 '3' '0', e16 '3' '1']
  simp only [h]
  cases listStartsWith cs ['1', '7', '2', '.'] <;>
    simp [private172, Bool.or_assoc]

/-- C5 counterexample: the string `10.example.com` falls in none of the
reserved ranges the claim names (it is not an address in any of them, and the
spec says unmatched input classifies as public), yet `isPrivateIP` classifies
it as private, because it starts with the literal prefix `10.` — so
"private exactly when it falls in the reserved ranges" fails. -/
theorem isPrivateIP_range_counterexample :
    isPrivateIP (some "10.example.com") = true ∧
    specReservedRange "10.example.com" = false := by
  decide

/-- C5 (amended): `isPrivateIP` is a pure total function returning `true`
for `127.0.0.1`, `10.0.0.1`, `192.168.1.1`, `172.16.0.5`, `169.254.1.1`,
`::1` and an absent address, and `false` for `8.8.8.8` and `1.1.1.1`; in
general it classifies an address as private exactly when the string is empty
or starts with one of the literal prefixes `10.`, `127.`, `192.168.`,
`172.16.`–`172.31.`, `169.254.`, `::1`, `fe80:` — a prefix heuristic that
coincides with the reserved ranges on well-formed dotted-quad IPv4 addresses
but not on arbitrary strings. -/
theorem isPrivateIP_amended :
    (isPrivateIP (some "127.0.0.1") = true ∧
     isPrivateIP (some "10.0.0.1") = true ∧
     isPrivateIP (some "192.168.1.1") = true ∧
     isPrivateIP (some "172.16.0.5") = true ∧
     isPrivateIP (some "169.254.1.1") = true ∧
     isPrivateIP (some "::1") = true ∧
     isPrivateIP none = true ∧
     isPrivateIP (some "8.8.8.8") = false ∧
     isPrivateIP (some "1.1.1.1") = false) ∧
    ∀ s : String, isPrivateIP (some s) =
      (s == "" || privatePrefixList.any fun p => listStartsWith s.data p.data) := by
  refine ⟨by decide, ?_⟩
  intro s
  by_cases hs : s = ""
  · subst hs; decide
  · have hb : (s == "") = false := by
      simp [hs]
    simp only [isPrivateIP, if_neg hs]
    rw [startsWith_172_block]
    simp [privatePrefixList, hb, Bool.or_assoc]

end Network
